import Mathlib

/-!
Shallow embedding of the schej.it server's calendar-integration core.

Time instants (`time.Time` values) are modelled as `Int` nanoseconds since
the Unix epoch: `t1.Before t2` is `t1 < t2` and `t1.After t2` is `t2 < t1`.
MongoDB's `primitive.DateTime` is an `Int` count of milliseconds since the
Unix epoch.  The embedded functions follow:
  - `src/server/routes/user.go` (`getCalendar`: decode, error check, window
    filter and conversion into `models.CalendarEvent`),
  - `src/server/services/calendar/types.go` (`GetCalendarProvider`),
  - the `models` package file under `src/unnamed/part_000`
    (`Event`, `Event.GetId`).
-/

namespace Schej

/-- Model of the anonymous struct `TimeInfo` in `getCalendar`
(`src/server/routes/user.go`): the decoded `dateTime` field of a Google
calendar item, a `time.Time` instant in nanoseconds since the Unix epoch. -/
structure TimeInfo where
  DateTime : Int
  deriving Repr, DecidableEq

/-- Model of the anonymous struct `Item` in `getCalendar`: one decoded
calendar item of the provider response. -/
structure Item where
  Summary : String
  Start : TimeInfo
  End : TimeInfo
  deriving Repr, DecidableEq

/-- Model of `models.CalendarEvent` as constructed in `getCalendar`:
`StartDate`/`EndDate` are `primitive.DateTime` values, i.e. milliseconds
since the Unix epoch. -/
structure CalendarEvent where
  Summary : String
  StartDate : Int
  EndDate : Int
  deriving Repr, DecidableEq

/-- Model of `primitive.NewDateTimeFromTime` of the mongo driver:
`DateTime(t.Unix()*1000 + int64(t.Nanosecond())/1000000)`.  `t.Unix()` is
the floor of the instant divided by 1e9 and `t.Nanosecond()` is the
non-negative remainder, so with the instant as `Int` nanoseconds both are
Euclidean division/remainder by 1e9, and Go's division of the non-negative
nanosecond count by 1e6 is again Euclidean. -/
def NewDateTimeFromTime (ns : Int) : Int :=
  ns / 1000000000 * 1000 + ns % 1000000000 / 1000000

/-- Model of `primitive.DateTime.Time` of the mongo driver:
`time.Unix(int64(d)/1000, int64(d)%1000*1000000)`, read back as an instant
in nanoseconds (`sec*1e9 + nsec`).  Go's `/` and `%` on `int64` truncate
toward zero, i.e. `Int.tdiv`/`Int.tmod`. -/
def dateTimeToInstant (ms : Int) : Int :=
  Int.tdiv ms 1000 * 1000000000 + Int.tmod ms 1000 * 1000000

/-- Conversion of a decoded item into `models.CalendarEvent` as written in
the loop body of `getCalendar` (`src/server/routes/user.go:137-141`). -/
def toCalendarEvent (i : Item) : CalendarEvent :=
  { Summary := i.Summary
    StartDate := NewDateTimeFromTime i.Start.DateTime
    EndDate := NewDateTimeFromTime i.End.DateTime }

/-- The filter-and-convert loop of `getCalendar`
(`src/server/routes/user.go:133-143`): starting from the empty slice made
by `make([]models.CalendarEvent, 0)`, each item is appended (converted)
exactly when `payload.TimeMin.Before(item.Start.DateTime) &&
payload.TimeMax.After(item.End.DateTime)`. -/
def formatEvents (tmin tmax : Int) (items : List Item) : List CalendarEvent :=
  items.foldl
    (fun acc item =>
      if tmin < item.Start.DateTime ∧ item.End.DateTime < tmax then
        acc ++ [toCalendarEvent item]
      else acc)
    []

/-- A raw item of the provider's JSON `items` array: either it unmarshals
into `Item`, or unmarshalling it fails (e.g. `dateTime` is not a
timestamp), in which case `json.Decoder.Decode` returns a non-nil error
for the whole response. -/
inductive RawItem
  | good (i : Item)
  | malformed
  deriving Repr, DecidableEq

/-- Whether decoding this raw item fails. -/
def RawItem.isMalformed : RawItem → Bool
  | .malformed => true
  | .good _ => false

/-- The item a raw item decodes to, when it decodes. -/
def RawItem.decoded : RawItem → Option Item
  | .malformed => none
  | .good i => some i

/-- A provider response body before decoding: the `items` array and the
`error` field (`Error interface{}` in the Go struct; `none` models JSON
absence / nil, `some` models any present error payload). -/
structure RawResponse where
  items : List RawItem
  error : Option String
  deriving Repr, DecidableEq

/-- Model of the decoded `Response` struct of `getCalendar`. -/
structure Response where
  Items : List Item
  Error : Option String
  deriving Repr, DecidableEq

/-- Model of `json.NewDecoder(resp.Body).Decode(&res)` in `getCalendar`:
if any item of the response fails to unmarshal, `Decode` returns a non-nil
error (and `getCalendar` panics on it); otherwise the decoded `Response`
is produced. -/
def decodeResponse (r : RawResponse) : Option Response :=
  if r.items.any RawItem.isMalformed then none
  else some { Items := r.items.filterMap RawItem.decoded, Error := r.error }

/-- Outcome of one `getCalendar` request, seen from its HTTP client. -/
inductive GetCalendarResult
  /-- HTTP 200 with the filtered event list. -/
  | ok (events : List CalendarEvent)
  /-- HTTP 500 with the decoded response as body (`res.Error != nil`). -/
  | errorResponse (res : Response)
  /-- the handler panicked (`panic(err)` on a decode error). -/
  | panicked
  deriving Repr, DecidableEq

/-- Model of the response-processing part of `getCalendar`
(`src/server/routes/user.go:120-145`): decode the body (panic on a decode
error), return the response with status 500 when its `error` field is
non-nil, otherwise return the filtered, converted event list with
status 200. -/
def getCalendar (tmin tmax : Int) (raw : RawResponse) : GetCalendarResult :=
  match decodeResponse raw with
  | none => .panicked
  | some res =>
    if res.Error.isSome then .errorResponse res
    else .ok (formatEvents tmin tmax res.Items)

/-- Model of `models.CalendarType` (the `models` package source is not in
the repository snapshot, but `src/server/services/calendar/types.go`
switches over exactly the two constants `GoogleCalendarType` and
`AppleCalendarType`); `other` stands for every remaining value of the
underlying type. -/
inductive CalendarType
  | google
  | apple
  | other (value : String)
  deriving Repr, DecidableEq

/-- Credential bundle for a Google calendar account
(`models.GoogleCalendarAuth`); its fields are irrelevant to the claims,
kept as one opaque payload. -/
structure GoogleCalendarAuth where
  payload : String
  deriving Repr, DecidableEq

/-- Credential bundle for an Apple calendar account
(`models.AppleCalendarAuth`); its fields are irrelevant to the claims,
kept as one opaque payload. -/
structure AppleCalendarAuth where
  payload : String
  deriving Repr, DecidableEq

/-- Model of `models.CalendarAccount` as used by `GetCalendarProvider`:
the provider type and the two (pointer, hence optional) credential
bundles. -/
structure CalendarAccount where
  calendarType : CalendarType
  googleCalendarAuth : Option GoogleCalendarAuth
  appleCalendarAuth : Option AppleCalendarAuth
  deriving Repr, DecidableEq

/-- A concrete adapter value returned by the factory: `&GoogleCalendar{...}`
or `&AppleCalendar{...}`, each bound to the dereferenced credential
bundle of the account. -/
inductive CalendarProviderValue
  | googleCalendar (auth : GoogleCalendarAuth)
  | appleCalendar (auth : AppleCalendarAuth)
  deriving Repr, DecidableEq

/-- Outcome of `GetCalendarProvider`: a provider adapter, the literal
`nil` interface value of the final `return nil`, or a runtime panic from
dereferencing a nil credential-bundle pointer
(`*calendarAccount.GoogleCalendarAuth`). -/
inductive GetCalendarProviderResult
  | provider (p : CalendarProviderValue)
  | nilProvider
  | panicked
  deriving Repr, DecidableEq

/-- Model of `GetCalendarProvider`
(`src/server/services/calendar/types.go:14-26`): switch on the account's
calendar type; Google and Apple return adapters holding the dereferenced
auth bundle; every other type falls through to `return nil`. -/
def GetCalendarProvider (acc : CalendarAccount) : GetCalendarProviderResult :=
  match acc.calendarType with
  | .google =>
    match acc.googleCalendarAuth with
    | some auth => .provider (.googleCalendar auth)
    | none => .panicked
  | .apple =>
    match acc.appleCalendarAuth with
    | some auth => .provider (.appleCalendar auth)
    | none => .panicked
  | .other _ => .nilProvider

/-- A byte of a `primitive.ObjectID`. -/
abbrev Byte := Fin 256

/-- Model of `primitive.ObjectID`: its 12 bytes (the length plays no role
in the claims, so a list is used). -/
abbrev ObjectID := List Byte

/-- Lowercase hexadecimal digit for a value below 16, as produced by Go's
`encoding/hex`. -/
def hexDigitChar (n : Nat) : Char :=
  Char.ofNat (if n < 10 then 48 + n else 87 + n)

/-- Model of `primitive.ObjectID.Hex`: `hex.EncodeToString` of the 12
bytes, two lowercase hex digits per byte. -/
def ObjectID.Hex (id : ObjectID) : String :=
  String.mk (id.foldr
    (fun b acc => hexDigitChar (b.val / 16) :: hexDigitChar (b.val % 16) :: acc)
    [])

/-- Model of `models.EventType` (`src/unnamed/part_000:7-13`). -/
inductive EventType
  | SPECIFIC_DATES
  | DOW
  | GROUP
  deriving Repr, DecidableEq

/-- Model of `models.Event` (`src/unnamed/part_000:16-50`), restricted to
the scalar fields; the remaining fields (durations, dates, responses,
scheduled event, remindees, attendees) are not read by any claim and are
omitted. -/
structure Event where
  Id : ObjectID
  ShortId : Option String
  Name : String
  Description : Option String
  /-- the Go field is `Type`, a keyword in Lean -/
  eventType : EventType
  deriving Repr, DecidableEq

/-- Model of `Event.GetId` (`src/unnamed/part_000:87-93`): the
dereferenced `ShortId` when the pointer is non-nil, otherwise the hex
encoding of `Id`. -/
def Event.GetId (e : Event) : String :=
  match e.ShortId with
  | some s => s
  | none => ObjectID.Hex e.Id

/-! Helper lemmas shared by the claim theorems. -/

/-- The append-in-a-loop of `getCalendar` is the filter by the strict
window condition followed by the per-item conversion. -/
theorem formatEvents_eq_filter_map (tmin tmax : Int) (items : List Item) :
    formatEvents tmin tmax items =
      (items.filter
        (fun i => decide (tmin < i.Start.DateTime ∧ i.End.DateTime < tmax))).map
        toCalendarEvent := by
  have aux : ∀ (l : List Item) (acc : List CalendarEvent),
      l.foldl
        (fun acc item =>
          if tmin < item.Start.DateTime ∧ item.End.DateTime < tmax then
            acc ++ [toCalendarEvent item]
          else acc)
        acc =
      acc ++ (l.filter
        (fun i => decide (tmin < i.Start.DateTime ∧ i.End.DateTime < tmax))).map
        toCalendarEvent := by
    intro l
    induction l with
    | nil => intro acc; simp
    | cons x xs ih =>
      intro acc
      by_cases h : tmin < x.Start.DateTime ∧ x.End.DateTime < tmax
      · simp [List.foldl_cons, List.filter_cons, h, ih]
      · simp [List.foldl_cons, List.filter_cons, h, ih]
  simpa [formatEvents] using aux items []

/-- `NewDateTimeFromTime` floors the instant to milliseconds. -/
theorem NewDateTimeFromTime_eq (ns : Int) :
    NewDateTimeFromTime ns = ns / 1000000 := by
  unfold NewDateTimeFromTime
  omega

/-- Reading a `primitive.DateTime` back as an instant multiplies the
millisecond count by 1e6. -/
theorem dateTimeToInstant_eq (ms : Int) :
    dateTimeToInstant ms = ms * 1000000 := by
  unfold dateTimeToInstant
  have h := Int.tdiv_add_tmod ms 1000
  linarith

/-- Decoding succeeds exactly when no raw item is malformed. -/
theorem decodeResponse_eq_none_iff (r : RawResponse) :
    decodeResponse r = none ↔ RawItem.malformed ∈ r.items := by
  unfold decodeResponse
  constructor
  · intro h
    by_cases hany : r.items.any RawItem.isMalformed
    · rcases List.any_eq_true.mp hany with ⟨ri, hri, hmal⟩
      cases ri with
      | malformed => exact hri
      | good i => simp [RawItem.isMalformed] at hmal
    · simp [hany] at h
  · intro h
    have hany : r.items.any RawItem.isMalformed = true :=
      List.any_eq_true.mpr ⟨RawItem.malformed, h, rfl⟩
    simp [hany]

/-! Claim theorems. -/

/-- C1: for every caller-supplied window and every list of decoded
provider items, `getCalendar` retains an item exactly when `timeMin`
strictly precedes its start and `timeMax` strictly follows its end;
boundary-touching or boundary-crossing items are dropped entirely (never
clipped, each retained item is converted unchanged), and retained events
keep their original input order, the output being precisely the filter of
the input list by the strict window condition followed by the per-item
conversion. -/
theorem getCalendar_window_filter_characterization
    (tmin tmax : Int) (items : List Item) :
    formatEvents tmin tmax items =
      (items.filter
        (fun i => decide (tmin < i.Start.DateTime ∧ i.End.DateTime < tmax))).map
        toCalendarEvent :=
  formatEvents_eq_filter_map tmin tmax items

/-- C2 counterexample: for an account whose provider type is outside the
supported set, `GetCalendarProvider` returns the nil interface value
(`return nil` in `types.go:25`) — not any explicit UnknownProviderType
error value (the function's result type has no error component at all). -/
theorem GetCalendarProvider_unknown_counterexample :
    GetCalendarProvider
        { calendarType := CalendarType.other "outlook",
          googleCalendarAuth := none,
          appleCalendarAuth := none } =
      GetCalendarProviderResult.nilProvider := rfl

/-- C2 amended: for every CalendarAccount whose provider type is not in
the supported set (Google, Apple), `GetCalendarProvider` returns the nil
interface value (no adapter and no explicit error); for a supported type
with a populated matching credential bundle it returns the adapter bound
to that bundle. -/
theorem GetCalendarProvider_amended (acc : CalendarAccount) :
    (∀ v, acc.calendarType = CalendarType.other v →
      GetCalendarProvider acc = GetCalendarProviderResult.nilProvider) ∧
    (∀ a, acc.calendarType = CalendarType.google →
      acc.googleCalendarAuth = some a →
      GetCalendarProvider acc =
        GetCalendarProviderResult.provider (CalendarProviderValue.googleCalendar a)) ∧
    (∀ a, acc.calendarType = CalendarType.apple →
      acc.appleCalendarAuth = some a →
      GetCalendarProvider acc =
        GetCalendarProviderResult.provider (CalendarProviderValue.appleCalendar a)) := by
  refine ⟨?_, ?_, ?_⟩
  · intro v hv
    simp [GetCalendarProvider, hv]
  · intro a ht ha
    simp [GetCalendarProvider, ht, ha]
  · intro a ht ha
    simp [GetCalendarProvider, ht, ha]

/-- C2 witness: a Google account with a populated bundle gets the Google
adapter bound to that bundle. -/
theorem GetCalendarProvider_amended_witness :
    GetCalendarProvider
        { calendarType := CalendarType.google,
          googleCalendarAuth := some { payload := "tok" },
          appleCalendarAuth := none } =
      GetCalendarProviderResult.provider
        (CalendarProviderValue.googleCalendar { payload := "tok" }) :=
  (GetCalendarProvider_amended _).2.1 { payload := "tok" } rfl rfl

/-- C3 counterexample: a response holding one malformed item and one
well-formed item makes `getCalendar` panic (the `panic(err)` after
`Decode`); the well-formed item is not returned, so no partial decoding
happens. -/
theorem getCalendar_decode_crash_counterexample :
    getCalendar 0 100
        { items := [RawItem.malformed,
            RawItem.good
              { Summary := "ok", Start := { DateTime := 10 }, End := { DateTime := 20 } }],
          error := none } =
      GetCalendarResult.panicked ∧
    getCalendar 0 100
        { items := [RawItem.malformed,
            RawItem.good
              { Summary := "ok", Start := { DateTime := 10 }, End := { DateTime := 20 } }],
          error := none } ≠
      GetCalendarResult.ok
        [toCalendarEvent
          { Summary := "ok", Start := { DateTime := 10 }, End := { DateTime := 20 } }] := by
  constructor
  · rfl
  · decide

/-- C3 amended: a decode failure on any single item of the response aborts
the whole request with a panic; no partial event list is ever produced
from the remaining well-formed items. -/
theorem getCalendar_panics_on_malformed_item (tmin tmax : Int) (raw : RawResponse)
    (h : RawItem.malformed ∈ raw.items) :
    getCalendar tmin tmax raw = GetCalendarResult.panicked := by
  unfold getCalendar
  rw [(decodeResponse_eq_none_iff raw).mpr h]

/-- C3 witness: the amended claim at a concrete one-item response. -/
theorem getCalendar_panics_on_malformed_item_witness :
    getCalendar 0 100 { items := [RawItem.malformed], error := none } =
      GetCalendarResult.panicked :=
  getCalendar_panics_on_malformed_item 0 100 _ (by decide)

/-- C4 counterexample: an item whose start instant is 1 nanosecond after
the epoch loses that instant in the round trip through
`models.CalendarEvent`: the stored `primitive.DateTime` truncates to
milliseconds, so reading the instant back yields 0, not 1. -/
theorem calendarEvent_roundTrip_counterexample :
    dateTimeToInstant
        (toCalendarEvent
          { Summary := "e", Start := { DateTime := 1 }, End := { DateTime := 2000000 } }).StartDate ≠
      (1 : Int) := by decide

/-- C4 amended: the round trip through the canonical `CalendarEvent`
preserves the summary exactly for every item, and preserves the start and
end instants exactly whenever they are whole milliseconds (multiples of
1e6 nanoseconds); otherwise the instants are floored to milliseconds. -/
theorem calendarEvent_roundTrip_amended (i : Item) :
    (toCalendarEvent i).Summary = i.Summary ∧
    ((1000000 : Int) ∣ i.Start.DateTime →
      dateTimeToInstant (toCalendarEvent i).StartDate = i.Start.DateTime) ∧
    ((1000000 : Int) ∣ i.End.DateTime →
      dateTimeToInstant (toCalendarEvent i).EndDate = i.End.DateTime) := by
  refine ⟨rfl, ?_, ?_⟩
  · intro h
    show dateTimeToInstant (NewDateTimeFromTime i.Start.DateTime) = i.Start.DateTime
    rw [NewDateTimeFromTime_eq, dateTimeToInstant_eq]
    exact Int.ediv_mul_cancel h
  · intro h
    show dateTimeToInstant (NewDateTimeFromTime i.End.DateTime) = i.End.DateTime
    rw [NewDateTimeFromTime_eq, dateTimeToInstant_eq]
    exact Int.ediv_mul_cancel h

/-- C4 witness: the amended claim at an item with whole-millisecond
instants. -/
theorem calendarEvent_roundTrip_amended_witness :
    dateTimeToInstant
        (toCalendarEvent
          { Summary := "m", Start := { DateTime := 3000000 }, End := { DateTime := 5000000 } }).StartDate =
      (3000000 : Int) ∧
    dateTimeToInstant
        (toCalendarEvent
          { Summary := "m", Start := { DateTime := 3000000 }, End := { DateTime := 5000000 } }).EndDate =
      (5000000 : Int) :=
  ⟨(calendarEvent_roundTrip_amended _).2.1 ⟨3, rfl⟩,
   (calendarEvent_roundTrip_amended _).2.2 ⟨5, rfl⟩⟩

/-- C5 counterexample: `getCalendar` never checks that an item's start
precedes its end, so an inverted item inside the window is retained and
the output event violates `StartDate < EndDate` (here 5 ms vs 3 ms). -/
theorem output_invariant_counterexample :
    (formatEvents 0 10000000
        [{ Summary := "inv", Start := { DateTime := 5000000 }, End := { DateTime := 3000000 } }]).all
        (fun e => decide (e.StartDate < e.EndDate)) = false := by decide

/-- C5 amended: provided every input item satisfies start < end (as
nanosecond instants), every event in `getCalendar`'s output satisfies
`StartDate ≤ EndDate`; the truncation of instants to milliseconds can
collapse a strict inequality to an equality, and an inverted input item
passes the filter untouched, so neither the hypothesis nor the weakening
to ≤ can be dropped. -/
theorem output_invariant_amended (tmin tmax : Int) (items : List Item)
    (h : ∀ i ∈ items, i.Start.DateTime < i.End.DateTime) :
    ∀ e ∈ formatEvents tmin tmax items, e.StartDate ≤ e.EndDate := by
  intro e he
  rw [formatEvents_eq_filter_map] at he
  rcases List.mem_map.mp he with ⟨i, hi, rfl⟩
  have hmem : i ∈ items := List.mem_of_mem_filter hi
  have hlt := h i hmem
  show NewDateTimeFromTime i.Start.DateTime ≤ NewDateTimeFromTime i.End.DateTime
  rw [NewDateTimeFromTime_eq, NewDateTimeFromTime_eq]
  omega

/-- C5 witness: the amended claim at a one-item list inside the window. -/
theorem output_invariant_amended_witness :
    (∀ i ∈ [({ Summary := "a", Start := { DateTime := 1 }, End := { DateTime := 2 } } : Item)],
      i.Start.DateTime < i.End.DateTime) ∧
    ∀ e ∈ formatEvents 0 10
        [({ Summary := "a", Start := { DateTime := 1 }, End := { DateTime := 2 } } : Item)],
      e.StartDate ≤ e.EndDate :=
  ⟨by decide, output_invariant_amended 0 10 _ (by decide)⟩

/-- C6 counterexample: a provider response whose `error` field is non-nil
and whose item list is empty has no item passing the filter, yet
`getCalendar` returns the 500 error response, not a success with an empty
list. -/
theorem empty_success_counterexample :
    getCalendar 0 100 { items := [], error := some "rateLimitExceeded" } ≠
      GetCalendarResult.ok [] ∧
    getCalendar 0 100 { items := [], error := some "rateLimitExceeded" } =
      GetCalendarResult.errorResponse
        { Items := [], Error := some "rateLimitExceeded" } := by
  constructor
  · decide
  · rfl

/-- C6 amended: for every window and every provider response that decodes
(no malformed item) and whose `error` field is absent, if no decoded item
passes the filter (in particular when there are no items at all) then
`getCalendar` returns success with the empty — present, not null — event
list (`make([]models.CalendarEvent, 0)`), not an error. -/
theorem empty_success_amended (tmin tmax : Int) (raw : RawResponse)
    (hdec : RawItem.malformed ∉ raw.items)
    (herr : raw.error = none)
    (hfilter : ∀ i ∈ raw.items.filterMap RawItem.decoded,
      ¬(tmin < i.Start.DateTime ∧ i.End.DateTime < tmax)) :
    getCalendar tmin tmax raw = GetCalendarResult.ok [] := by
  have hany : raw.items.any RawItem.isMalformed = false := by
    rw [List.any_eq_false]
    intro ri hri
    cases ri with
    | good i => simp [RawItem.isMalformed]
    | malformed => exact absurd hri hdec
  have hsome : decodeResponse raw =
      some { Items := raw.items.filterMap RawItem.decoded, Error := raw.error } := by
    unfold decodeResponse
    simp [hany]
  unfold getCalendar
  rw [hsome]
  simp only [herr, Option.isSome_none, Bool.false_eq_true, if_false]
  have hnil : (raw.items.filterMap RawItem.decoded).filter
      (fun i => decide (tmin < i.Start.DateTime ∧ i.End.DateTime < tmax)) = [] := by
    rw [List.filter_eq_nil_iff]
    intro i hi
    simpa using hfilter i hi
  rw [formatEvents_eq_filter_map, hnil]
  rfl

/-- C6 witness: the amended claim at a response with one item that ends
past the window. -/
theorem empty_success_amended_witness :
    getCalendar 0 100
        { items := [RawItem.good
            { Summary := "late", Start := { DateTime := 200 }, End := { DateTime := 300 } }],
          error := none } =
      GetCalendarResult.ok [] :=
  empty_success_amended 0 100 _ (by decide) rfl (by decide)

/-- C7: the normalization/filter step of `getCalendar` is deterministic in
its inputs — two runs over the same window and the same provider data
yield identical results (the embedded computation is a pure function of
the window and the response; the Go loop iterates a slice in its stored
order and consults no other state). -/
theorem getCalendar_deterministic (tmin₁ tmax₁ : Int) (raw₁ : RawResponse)
    (tmin₂ tmax₂ : Int) (raw₂ : RawResponse)
    (h₁ : tmin₁ = tmin₂) (h₂ : tmax₁ = tmax₂) (h₃ : raw₁ = raw₂) :
    getCalendar tmin₁ tmax₁ raw₁ = getCalendar tmin₂ tmax₂ raw₂ := by
  rw [h₁, h₂, h₃]

/-- C7 witness: two runs at a concrete window and response. -/
theorem getCalendar_deterministic_witness :
    getCalendar 0 100
        { items := [RawItem.good
            { Summary := "a", Start := { DateTime := 10 }, End := { DateTime := 20 } }],
          error := none } =
      getCalendar 0 100
        { items := [RawItem.good
            { Summary := "a", Start := { DateTime := 10 }, End := { DateTime := 20 } }],
          error := none } :=
  getCalendar_deterministic 0 100 _ 0 100 _ rfl rfl rfl

/-- C9: for a degenerate window with timeMin ≥ timeMax and items that all
satisfy start < end, the strict filter condition is unsatisfiable, so
`getCalendar` retains nothing and the event list is empty. -/
theorem degenerate_window_empty (tmin tmax : Int) (items : List Item)
    (hw : tmax ≤ tmin)
    (h : ∀ i ∈ items, i.Start.DateTime < i.End.DateTime) :
    formatEvents tmin tmax items = [] := by
  rw [formatEvents_eq_filter_map]
  have hnil : items.filter
      (fun i => decide (tmin < i.Start.DateTime ∧ i.End.DateTime < tmax)) = [] := by
    rw [List.filter_eq_nil_iff]
    intro i hi
    have := h i hi
    simp only [decide_eq_true_eq, not_and]
    omega
  rw [hnil]
  rfl

/-- C9 witness: an empty-window run over one well-formed item. -/
theorem degenerate_window_empty_witness :
    formatEvents 5 5
        [({ Summary := "a", Start := { DateTime := 1 }, End := { DateTime := 2 } } : Item)] = [] :=
  degenerate_window_empty 5 5 _ le_rfl (by decide)

/-- C10: `Event.GetId` returns the dereferenced `ShortId` whenever the
pointer is non-nil, otherwise the hex encoding of `Id`; in particular it
never returns the empty string when `ShortId` is non-nil and non-empty. -/
theorem Event_GetId_spec (e : Event) :
    (∀ s, e.ShortId = some s → e.GetId = s) ∧
    (e.ShortId = none → e.GetId = ObjectID.Hex e.Id) ∧
    (∀ s, e.ShortId = some s → s ≠ "" → e.GetId ≠ "") := by
  refine ⟨?_, ?_, ?_⟩
  · intro s hs
    simp [Event.GetId, hs]
  · intro hn
    simp [Event.GetId, hn]
  · intro s hs hne
    simp [Event.GetId, hs]
    exact hne

/-- C10 witness: both branches of `GetId` at concrete events. -/
theorem Event_GetId_spec_witness :
    Event.GetId
        { Id := [101, 0, 1, 2, 3, 4, 5, 6, 7, 8, 9, 10],
          ShortId := some "abc", Name := "n", Description := none,
          eventType := EventType.GROUP } = "abc" ∧
    Event.GetId
        { Id := [101, 0, 1, 2, 3, 4, 5, 6, 7, 8, 9, 10],
          ShortId := none, Name := "n", Description := none,
          eventType := EventType.GROUP } =
      ObjectID.Hex [101, 0, 1, 2, 3, 4, 5, 6, 7, 8, 9, 10] :=
  ⟨(Event_GetId_spec _).1 "abc" rfl, (Event_GetId_spec _).2.1 rfl⟩

end Schej
